import Mathlib

/-!
Verification of the grid layout tool in src/game-icons.py.

The script lays SVG icons out on a paginated grid of square cells, each icon
clipped inside a circular badge, and writes a multi-page PDF.  This file gives
a shallow embedding of the script:

* Python strings are embedded as lists of characters; the embedding of
  character-level operations (lower, upper, strip) models the ASCII range,
  which covers every input exercised here.
* Python floats are embedded as exact rationals, and geometry that involves
  the irrational factor sqrt 2 is embedded over the reals.
* Calls into the external libraries (reportlab, svglib) are embedded by their
  documented behaviour: the canvas is modelled as the list of drawing
  operations issued to it, and SVG parsing as an environment mapping each
  path to a parse outcome.
-/

namespace GameIcons

/-! ## Character and string utilities -/

/-- Whitespace characters removed by the embedding of str.strip (ASCII model
of Python whitespace: space, tab, newline, carriage return, vertical tab,
form feed). -/
def isPySpace (c : Char) : Bool :=
  c = ' ' || c = '\t' || c = '\n' || c = '\r' || c = Char.ofNat 11 || c = Char.ofNat 12

/-- Embedding of str.strip: drop whitespace from both ends. -/
def pyStrip (s : List Char) : List Char :=
  ((s.dropWhile isPySpace).reverse.dropWhile isPySpace).reverse

/-- Embedding of str.lower for one character (ASCII model). -/
def lowerChar (c : Char) : Char :=
  if 65 ≤ c.toNat ∧ c.toNat ≤ 90 then Char.ofNat (c.toNat + 32) else c

/-- Embedding of str.upper for one character (ASCII model). -/
def upperChar (c : Char) : Char :=
  if 97 ≤ c.toNat ∧ c.toNat ≤ 122 then Char.ofNat (c.toNat - 32) else c

/-- Bool test: does the string begin with the given pattern?  Embeds
str.startswith and the anchored-match step of str.replace. -/
def startsWith : List Char → List Char → Bool
  | [], _ => true
  | _ :: _, [] => false
  | p :: ps, c :: cs => p = c && startsWith ps cs

/-- Bool test: does the string end with the given pattern?  Embeds
str.endswith. -/
def endsWithList (pat s : List Char) : Bool :=
  startsWith pat.reverse s.reverse

/-! ## Asset discovery (find_svgs, lines 19-28) -/

/-- A filesystem path, split the way the sort key in find_svgs splits it:
str(p.parent) and p.name. -/
structure SPath where
  parent : List Char
  name : List Char
deriving DecidableEq

/-- Lexicographic comparison of strings by code point; embeds Python string
comparison, which the tuple sort key (str(p.parent), p.name) uses. -/
def lexLe : List Char → List Char → Bool
  | [], _ => true
  | _ :: _, [] => false
  | a :: as, b :: bs => if a = b then lexLe as bs else decide (a.toNat < b.toNat)

/-- Embedding of the tuple comparison on the sort key
(str(p.parent), p.name). -/
def pathLe (p q : SPath) : Prop :=
  if p.parent = q.parent then lexLe p.name q.name = true
  else lexLe p.parent q.parent = true

instance : DecidableRel pathLe := by
  intro p q
  unfold pathLe
  infer_instance

/-- The filename filter of find_svgs: fn.lower().endswith(".svg"). -/
def isSvgName (fn : List Char) : Bool :=
  endsWithList ([ '.', 's', 'v', 'g' ]) (fn.map lowerChar)

/-- Embedding of find_svgs on an existing root: the files produced by the
directory walk are filtered by isSvgName and sorted by the key
(str(p.parent), p.name).  Python list.sort is a stable sort; insertion sort
into sorted position before the first strictly larger key is stable, so it
embeds list.sort faithfully. -/
def find_svgs (files : List SPath) : List SPath :=
  List.insertionSort pathLe (files.filter (fun p => isSvgName p.name))

/-! ## Grid planning (compute_grid, lines 31-38) -/

/-- Embedding of compute_grid.  Python int(page_w // cell) on positive floats
is the floor of the quotient. -/
def compute_grid (page_w page_h cell : ℚ) : ℤ × ℤ × ℚ × ℚ :=
  let cols := max 1 ⌊page_w / cell⌋
  let rows := max 1 ⌊page_h / cell⌋
  let used_w := (cols : ℚ) * cell
  let used_h := (rows : ℚ) * cell
  (cols, rows, (page_w - used_w) / 2, (page_h - used_h) / 2)

/-- Embedding of line 244: GRID_STROKE_GRAY = min(max(args.grid_gray, 0.0), 1.0). -/
def gridStrokeGray (g : ℚ) : ℚ :=
  min (max g 0) 1

/-! ## Colors -/

/-- An RGB color with components in [0,1]; embeds reportlab Color. -/
structure ColorQ where
  red : ℚ
  green : ℚ
  blue : ℚ
deriving DecidableEq

/-! ## Per-cell renderer (draw_svg_clipped, lines 41-118) -/

/-- Outcome of loading one SVG through load_svg_with_foreground: either the
read or the parse raised, or svg2rlg returned a drawing whose width and
height attributes (after the float(... or 0) coercion of lines 89-90) are
the given rationals. -/
inductive LoadResult where
  | err (msg : List Char)
  | ok (w h : ℚ)
deriving DecidableEq

/-- One operation issued to the reportlab canvas.  The canvas is embedded as
the list of operations issued to it, in order. -/
inductive DrawOp where
  | fillRectWhite (x y size : ℝ)
  | clipCircle (cx cy r : ℝ)
  | fillCircle (cx cy r : ℝ) (color : ColorQ)
  | drawIcon (p : SPath) (scale x y : ℝ)
  | strokeRect (x y size : ℝ) (strokeWidth gray : ℝ)
  | showPage
  | warn (p : SPath)

/-- Side of the square inscribed in a circle of the given diameter
(line 61): circle_diameter / math.sqrt(2.0). -/
noncomputable def inscribedSide (d : ℝ) : ℝ :=
  d / Real.sqrt 2

/-- The uniform scale of line 97: min(target/dw, target/dh) with
target the inscribed-square side. -/
noncomputable def iconScale (d w h : ℝ) : ℝ :=
  min (inscribedSide d / w) (inscribedSide d / h)

/-- Embedding of draw_svg_clipped.  It issues, in source order: the white
cell rectangle, the circular clip path, the background circle fill, then —
only when the SVG loaded with positive size — the icon and the hairline cell
outline.  On a load failure or a non-positive size the function returns
after the warning (lines 84-94), so nothing after that point is issued. -/
noncomputable def draw_svg_clipped (p : SPath) (cell_x cell_y : ℝ)
    (cell_size circle_diameter grid_stroke_pt grid_stroke_gray : ℝ)
    (circle_fill : ColorQ) (load : LoadResult) : List DrawOp :=
  let clip_radius := circle_diameter / 2
  let cx := cell_x + cell_size / 2
  let cy := cell_y + cell_size / 2
  let preamble : List DrawOp :=
    [DrawOp.fillRectWhite cell_x cell_y cell_size,
     DrawOp.clipCircle cx cy clip_radius,
     DrawOp.fillCircle cx cy clip_radius circle_fill]
  match load with
  | LoadResult.err _ => preamble ++ [DrawOp.warn p]
  | LoadResult.ok dw dh =>
    if dw ≤ 0 ∨ dh ≤ 0 then preamble ++ [DrawOp.warn p]
    else
      let scale := iconScale circle_diameter (dw : ℝ) (dh : ℝ)
      let draw_w := (dw : ℝ) * scale
      let draw_h := (dh : ℝ) * scale
      preamble ++
        [DrawOp.drawIcon p scale (cell_x + (cell_size - draw_w) / 2)
           (cell_y + (cell_size - draw_h) / 2),
         DrawOp.strokeRect cell_x cell_y cell_size grid_stroke_pt grid_stroke_gray]

/-! ## Page and cell assignment (main loop, lines 253-276) -/

/-- cell_index = idx % per_page (line 256). -/
def cellIndexOf (perPage i : ℕ) : ℕ :=
  i % perPage

/-- col = cell_index % cols (line 260). -/
def colOf (cols perPage i : ℕ) : ℕ :=
  cellIndexOf perPage i % cols

/-- row = cell_index // cols (line 261). -/
def rowOf (cols perPage i : ℕ) : ℕ :=
  cellIndexOf perPage i / cols

/-- cell_x = off_x + col * CELL_SIZE (line 262). -/
def cellXOf (offX cellSize : ℝ) (cols perPage i : ℕ) : ℝ :=
  offX + (colOf cols perPage i : ℝ) * cellSize

/-- cell_y = off_y + row * CELL_SIZE (line 263). -/
def cellYOf (offY cellSize : ℝ) (cols perPage i : ℕ) : ℝ :=
  offY + (rowOf cols perPage i : ℝ) * cellSize

/-- The page-break test of line 257: cell_index == 0 and idx != 0. -/
def startsNewPage (perPage i : ℕ) : Bool :=
  decide (cellIndexOf perPage i = 0 ∧ i ≠ 0)

/-- Embedding of the for-loop of lines 255-276, started at index i:
for each asset, a showPage when the page-break test fires, then the cell
drawn by draw_svg_clipped. -/
noncomputable def renderFrom (cols rows : ℕ) (offX offY cellSize circleD strokePt strokeGray : ℝ)
    (fill : ColorQ) (load : SPath → LoadResult) : ℕ → List SPath → List DrawOp
  | _, [] => []
  | i, p :: rest =>
    (if startsNewPage (cols * rows) i then [DrawOp.showPage] else []) ++
      draw_svg_clipped p (cellXOf offX cellSize cols (cols * rows) i)
        (cellYOf offY cellSize cols (cols * rows) i)
        cellSize circleD strokePt strokeGray fill (load p) ++
      renderFrom cols rows offX offY cellSize circleD strokePt strokeGray fill load (i + 1) rest

/-- Count the showPage operations issued to the canvas. -/
def countShowPages (ops : List DrawOp) : ℕ :=
  ops.countP fun op => match op with
    | DrawOp.showPage => true
    | _ => false

/-- Number of pages in the finished document: the canvas starts on page one
and each showPage begins a further page, committed by the final save. -/
def pagesEmitted (ops : List DrawOp) : ℕ :=
  1 + countShowPages ops

/-- Does the operation list contain the hairline cell outline? -/
def hasBorderStroke (ops : List DrawOp) : Bool :=
  ops.any fun op => match op with
    | DrawOp.strokeRect _ _ _ _ _ => true
    | _ => false

/-- Does the operation list contain the background circle fill? -/
def hasCircleFill (ops : List DrawOp) : Bool :=
  ops.any fun op => match op with
    | DrawOp.fillCircle _ _ _ _ => true
    | _ => false

/-- Does the operation list contain a warning naming the given asset? -/
def warnsFor (p : SPath) (ops : List DrawOp) : Bool :=
  ops.any fun op => match op with
    | DrawOp.warn q => decide (q = p)
    | _ => false

/-- Does the operation list draw the icon of the given asset? -/
def drawsIconFor (p : SPath) (ops : List DrawOp) : Bool :=
  ops.any fun op => match op with
    | DrawOp.drawIcon q _ _ _ => decide (q = p)
    | _ => false

/-! ## Color resolution (parse_color, lines 129-150) -/

/-- Is the character one of string.hexdigits (0-9, a-f, A-F)? -/
def isHexDigitChar (c : Char) : Bool :=
  decide (48 ≤ c.toNat ∧ c.toNat ≤ 57) ||
    decide (97 ≤ c.toNat ∧ c.toNat ≤ 102) ||
    decide (65 ≤ c.toNat ∧ c.toNat ≤ 70)

/-- The lowercase hexadecimal digit for a value below 16, as written by the
format specifier 02x. -/
def hexChar (n : ℕ) : Char :=
  if n < 10 then Char.ofNat (48 + n) else Char.ofNat (87 + n)

/-- Two-digit lowercase hexadecimal rendering of a byte, as written by the
format specifier 02x for values below 256. -/
def natToHex2 (n : ℕ) : List Char :=
  [hexChar (n / 16), hexChar (n % 16)]

/-- Value of one hexadecimal digit character, if it is one. -/
def hexVal (c : Char) : Option ℕ :=
  if 48 ≤ c.toNat ∧ c.toNat ≤ 57 then some (c.toNat - 48)
  else if 97 ≤ c.toNat ∧ c.toNat ≤ 102 then some (c.toNat - 87)
  else if 65 ≤ c.toNat ∧ c.toNat ≤ 70 then some (c.toNat - 55)
  else none

/-- Value of a two-digit hexadecimal pair. -/
def hexPairVal (a b : Char) : Option ℕ :=
  match hexVal a, hexVal b with
  | some x, some y => some (16 * x + y)
  | _, _ => none

/-- Modelled from reportlab: toColor on a #-prefixed hex string builds a
HexColor; a three-digit body is first expanded CSS-style by doubling each
digit, a six-digit body gives components value/255.  Named colors and every
other form this embedding does not need are mapped to none, which stands for
the ValueError branch of lines 229-231. -/
def toColorModel (spec : List Char) : Option ColorQ :=
  match spec with
  | '#' :: body =>
    let body6 := match body with
      | [a, b, c] => [a, a, b, b, c, c]
      | other => other
    match body6 with
    | [a, b, c, d, e, f] =>
      match hexPairVal a b, hexPairVal c d, hexPairVal e f with
      | some r, some g, some bl => some (ColorQ.mk ((r : ℚ) / 255) ((g : ℚ) / 255) ((bl : ℚ) / 255))
      | _, _, _ => none
    | _ => none
  | _ => none

/-- Lines 130-132: raw = (value or default).strip(); if not raw: raw = default.
A missing or empty argument value is falsy, so the default is used in its
place; an all-whitespace value strips to empty and again falls back. -/
def resolveRaw (value : Option (List Char)) (dflt : List Char) : List Char :=
  let base := match value with
    | none => dflt
    | some s => if s = [] then dflt else s
  let raw0 := pyStrip base
  if raw0 = [] then dflt else raw0

/-- Python round on an exact rational: round half away from zero differs from
the banker rounding of Python only at exact halves, which never arise from
the inputs of this program (the components reaching it are integers divided
by 255 and scaled back by 255).  Mathlib round is used. -/
def pyRound (q : ℚ) : ℤ :=
  round q

/-- Lines 146-149: clamp a rounded component into 0..255 and format the
triple as a #rrggbb string. -/
def formatHex (c : ColorQ) : List Char :=
  let r := (max 0 (min 255 (pyRound (c.red * 255)))).toNat
  let g := (max 0 (min 255 (pyRound (c.green * 255)))).toNat
  let b := (max 0 (min 255 (pyRound (c.blue * 255)))).toNat
  '#' :: (natToHex2 r ++ natToHex2 g ++ natToHex2 b)

/-- Embedding of parse_color (lines 129-150).  none stands for a raised
ValueError. -/
def parse_color (value : Option (List Char)) (dflt : List Char) : Option (ColorQ × List Char) :=
  let raw := resolveRaw value dflt
  let color_spec :=
    if startsWith ([ '#' ]) raw then raw
    else if (raw.length = 3 ∨ raw.length = 6) ∧ raw.all isHexDigitChar then '#' :: raw
    else raw
  match toColorModel color_spec with
  | none => none
  | some c => some (c, formatHex c)

/-! ## Foreground substitution (load_svg_with_foreground, lines 121-126) -/

/-- Embedding of str.replace(pat, repl) for a fixed search pattern: scan left
to right; at each position either consume a full non-overlapping match and
emit the replacement, or copy one character.  An empty pattern is never used
by the program; it is mapped to the identity here. -/
def replaceAll (pat repl : List Char) (s : List Char) : List Char :=
  match pat, s with
  | [], s => s
  | _ :: _, [] => []
  | p0 :: pr, c :: cs =>
    if startsWith (p0 :: pr) (c :: cs) then
      repl ++ replaceAll (p0 :: pr) repl (cs.drop pr.length)
    else
      c :: replaceAll (p0 :: pr) repl cs
termination_by s.length
decreasing_by
  · simp only [List.length_cons, List.length_drop]
    omega
  · simp only [List.length_cons]
    omega

/-- The lowercase placeholder token of line 125. -/
def loTok : List Char :=
  [ '#', 'f', 'f', 'f' ]

/-- The uppercase placeholder token of line 125. -/
def hiTok : List Char :=
  [ '#', 'F', 'F', 'F' ]

/-- Embedding of line 125: the source text with the lowercase token replaced
by foreground_hex.lower() and then, in the result, the uppercase token
replaced by foreground_hex.upper(). -/
def recolorSvg (foreground_hex s : List Char) : List Char :=
  replaceAll hiTok (foreground_hex.map upperChar)
    (replaceAll loTok (foreground_hex.map lowerChar) s)

/-- Modelled from the spec: a single simultaneous pass that replaces every
occurrence of the lowercase token with lo, every occurrence of the uppercase
token with hi, and copies every other character unchanged.  This is the
reading of the claim that the recoloring replaces each occurrence of the two
tokens and changes no other character; the theorem for that claim compares
recolorSvg against it. -/
def replaceBothSpec (lo hi : List Char) (s : List Char) : List Char :=
  match s with
  | [] => []
  | c :: cs =>
    if startsWith loTok (c :: cs) then lo ++ replaceBothSpec lo hi (cs.drop 3)
    else if startsWith hiTok (c :: cs) then hi ++ replaceBothSpec lo hi (cs.drop 3)
    else c :: replaceBothSpec lo hi cs
termination_by s.length
decreasing_by
  · simp only [List.length_cons, List.length_drop]
    omega
  · simp only [List.length_cons, List.length_drop]
    omega
  · simp only [List.length_cons]
    omega

/-- Is the character a lowercase hexadecimal digit (0-9 or a-f)? -/
def isLowerHexDigit (c : Char) : Bool :=
  decide (48 ≤ c.toNat ∧ c.toNat ≤ 57) || decide (97 ≤ c.toNat ∧ c.toNat ≤ 102)

/-- Is the string a canonical #rrggbb color as produced by parse_color:
a hash sign followed by six lowercase hexadecimal digits? -/
def canonicalHex (s : List Char) : Bool :=
  match s with
  | c :: body => c = '#' && (body.length = 6 && body.all isLowerHexDigit)
  | [] => false

/-! ## Driver (main, lines 213-283) -/

/-- Page choice of the command line (lines 169-174). -/
inductive PageChoice where
  | a4
  | a4landscape

/-- Exact A4 dimensions in points (210mm and 297mm at 72 points per inch,
which reportlab approximates in floats). -/
def a4Dims : ℚ × ℚ :=
  (75600 / 127, 106920 / 127)

/-- Page size selection of lines 234-240. -/
def pageDims (p : PageChoice) : ℚ × ℚ :=
  match p with
  | PageChoice.a4 => a4Dims
  | PageChoice.a4landscape => (a4Dims.2, a4Dims.1)

/-- Observable outcome of one run of main: the returned exit code, whether
the output parent directory was created (line 224), whether the reportlab
canvas for the output path was constructed (line 251), whether the document
was finalised and written by save (line 278), and the drawing operations
issued. -/
structure RunOutcome where
  exit : ℕ
  outputDirCreated : Bool
  canvasCreated : Bool
  pdfSaved : Bool
  ops : List DrawOp

/-- Embedding of main.  The filesystem is abstracted as the existence of the
input directory, the list of files the walk yields, and the parse outcome of
each SVG path; reportlab writes the document file only when save runs, so a
run that returns before the canvas is constructed leaves no output file. -/
noncomputable def mainModel (inputExists : Bool) (files : List SPath)
    (load : SPath → LoadResult) (page : PageChoice)
    (cellSizeIn circleDIn strokePt gray : ℚ)
    (foreground background : Option (List Char)) : RunOutcome :=
  if !inputExists then RunOutcome.mk 2 false false false []
  else
    match parse_color foreground ([ 'f', 'f', 'f' ]), parse_color background ([ '0', '0', '0' ]) with
    | some (_fgColor, _fgHex), some (bgColor, _bgHex) =>
      let dims := pageDims page
      let cellSize := cellSizeIn * 72
      let circleD := circleDIn * 72
      let gray2 := gridStrokeGray gray
      let svgs := find_svgs files
      if svgs = [] then RunOutcome.mk 1 true false false []
      else
        let grid := compute_grid dims.1 dims.2 cellSize
        RunOutcome.mk 0 true true true
          (renderFrom grid.1.toNat grid.2.1.toNat ((grid.2.2.1 : ℚ) : ℝ) ((grid.2.2.2 : ℚ) : ℝ)
            ((cellSize : ℚ) : ℝ) ((circleD : ℚ) : ℝ) ((strokePt : ℚ) : ℝ) ((gray2 : ℚ) : ℝ)
            bgColor load 0 svgs)
    | _, _ => RunOutcome.mk 2 true false false []

/-! ## Claim C3: grid planner formulas and the degenerate case -/

/-- Claim C3: for positive page dimensions and cell size, compute_grid
returns columns = max 1 (floor (pageWidth / cellSize)) and the analogous row
count, centers the leftover margin on both axes, and in the degenerate case
of a cell larger than the page the count is clamped to 1 and the
corresponding offset is negative, with no error. -/
theorem claim3_compute_grid (w h cell : ℚ) (hw : 0 < w) (hh : 0 < h) (hc : 0 < cell) :
    compute_grid w h cell =
      (max 1 ⌊w / cell⌋, max 1 ⌊h / cell⌋,
        (w - (max 1 ⌊w / cell⌋ : ℤ) * cell) / 2,
        (h - (max 1 ⌊h / cell⌋ : ℤ) * cell) / 2) ∧
    1 ≤ (compute_grid w h cell).1 ∧ 1 ≤ (compute_grid w h cell).2.1 ∧
    (w < cell → (compute_grid w h cell).1 = 1 ∧ (compute_grid w h cell).2.2.1 < 0) ∧
    (h < cell → (compute_grid w h cell).2.1 = 1 ∧ (compute_grid w h cell).2.2.2 < 0) := by
  have floorW : w < cell → ⌊w / cell⌋ = 0 := by
    intro hlt
    rw [Int.floor_eq_zero_iff]
    constructor
    · exact div_nonneg hw.le hc.le
    · rw [div_lt_one hc]
      exact hlt
  have floorH : h < cell → ⌊h / cell⌋ = 0 := by
    intro hlt
    rw [Int.floor_eq_zero_iff]
    constructor
    · exact div_nonneg hh.le hc.le
    · rw [div_lt_one hc]
      exact hlt
  refine ⟨rfl, le_max_left _ _, le_max_left _ _, ?_, ?_⟩
  · intro hlt
    have h0 := floorW hlt
    have hmax : max 1 ⌊w / cell⌋ = 1 := by
      rw [h0]
      exact max_eq_left zero_le_one
    constructor
    · exact hmax
    · show (w - (max 1 ⌊w / cell⌋ : ℤ) * cell) / 2 < 0
      rw [hmax]
      push_cast
      linarith
  · intro hlt
    have h0 := floorH hlt
    have hmax : max 1 ⌊h / cell⌋ = 1 := by
      rw [h0]
      exact max_eq_left zero_le_one
    constructor
    · exact hmax
    · show (h - (max 1 ⌊h / cell⌋ : ℤ) * cell) / 2 < 0
      rw [hmax]
      push_cast
      linarith

/-- Witness for claim C3 at page 480 by 600 with 72-point cells. -/
theorem claim3_compute_grid_witness :
    (0 : ℚ) < 480 ∧ (0 : ℚ) < 600 ∧ (0 : ℚ) < 72 ∧
    (compute_grid 480 600 72 =
      (max 1 ⌊(480 : ℚ) / 72⌋, max 1 ⌊(600 : ℚ) / 72⌋,
        ((480 : ℚ) - (max 1 ⌊(480 : ℚ) / 72⌋ : ℤ) * 72) / 2,
        ((600 : ℚ) - (max 1 ⌊(600 : ℚ) / 72⌋ : ℤ) * 72) / 2) ∧
      1 ≤ (compute_grid 480 600 72).1 ∧ 1 ≤ (compute_grid 480 600 72).2.1 ∧
      ((480 : ℚ) < 72 → (compute_grid 480 600 72).1 = 1 ∧ (compute_grid 480 600 72).2.2.1 < 0) ∧
      ((600 : ℚ) < 72 → (compute_grid 480 600 72).2.1 = 1 ∧ (compute_grid 480 600 72).2.2.2 < 0)) :=
  ⟨by norm_num, by norm_num, by norm_num,
    claim3_compute_grid 480 600 72 (by norm_num) (by norm_num) (by norm_num)⟩

/-! ## Claim C9: grid gray level is clamped, not rejected -/

/-- Claim C9: every grid-gray value is clamped into the unit interval:
values below 0 become 0, values above 1 become 1, in-range values pass
through, and the result always lies in the unit interval. -/
theorem claim9_grid_gray_clamped :
    ∀ g : ℚ, gridStrokeGray g = (if g < 0 then 0 else if 1 < g then 1 else g) ∧
      0 ≤ gridStrokeGray g ∧ gridStrokeGray g ≤ 1 := by
  intro g
  unfold gridStrokeGray
  refine ⟨?_, le_min (le_max_right _ _) zero_le_one, min_le_right _ _⟩
  split_ifs with h1 h2
  · rw [max_eq_right h1.le]
    exact min_eq_left zero_le_one
  · rw [max_eq_left (not_lt.mp h1)]
    exact min_eq_right h2.le
  · rw [max_eq_left (not_lt.mp h1)]
    exact min_eq_left (not_lt.mp h2)

/-! ## Claim C10: blank color values fall back to the default -/

/-- Claim C10: a missing, empty, or all-whitespace color value resolves to
the supplied default string (which the defaults fff and 000 satisfy: already
stripped and nonempty), and the whole color resolution then behaves as if
the default had been passed; no error is raised. -/
theorem claim10_color_default (value : Option (List Char)) (dflt : List Char)
    (hd : pyStrip dflt = dflt) (hne : dflt ≠ [])
    (hblank : value = none ∨ value = some [] ∨ ∃ s, value = some s ∧ pyStrip s = []) :
    resolveRaw value dflt = dflt ∧ parse_color value dflt = parse_color (some dflt) dflt := by
  have hself : resolveRaw (some dflt) dflt = dflt := by
    unfold resolveRaw
    simp [hne, hd]
  have hval : resolveRaw value dflt = dflt := by
    unfold resolveRaw
    rcases hblank with h | h | ⟨s, hs, hstrip⟩
    · subst h
      simp [hne, hd]
    · subst h
      simp [hne, hd]
    · subst hs
      by_cases hnil : s = []
      · simp [hnil, hne, hd]
      · simp [hnil, hstrip, hne]
  refine ⟨hval, ?_⟩
  unfold parse_color
  rw [hval, hself]

/-- Witness for claim C10: an all-whitespace foreground value resolves to
the default fff. -/
theorem claim10_color_default_witness :
    pyStrip ([ 'f', 'f', 'f' ]) = ([ 'f', 'f', 'f' ]) ∧ ([ 'f', 'f', 'f' ] : List Char) ≠ [] ∧
    resolveRaw (some ([ ' ', ' ', ' ' ])) ([ 'f', 'f', 'f' ]) = ([ 'f', 'f', 'f' ]) ∧
    parse_color (some ([ ' ', ' ', ' ' ])) ([ 'f', 'f', 'f' ]) =
      parse_color (some ([ 'f', 'f', 'f' ])) ([ 'f', 'f', 'f' ]) := by
  have h := claim10_color_default (some ([ ' ', ' ', ' ' ])) ([ 'f', 'f', 'f' ])
    (by decide) (by decide) (Or.inr (Or.inr ⟨_, rfl, by decide⟩))
  exact ⟨by decide, by decide, h.1, h.2⟩

/-! ## Claim C2: cell assignment and page count -/

/-- draw_svg_clipped never turns the page. -/
theorem countShowPages_draw (p : SPath) (x y cs cd sp sg : ℝ) (fill : ColorQ)
    (load : LoadResult) : countShowPages (draw_svg_clipped p x y cs cd sp sg fill load) = 0 := by
  cases load with
  | err m => rfl
  | ok dw dh =>
    by_cases hwh : dw ≤ 0 ∨ dh ≤ 0
    · simp only [draw_svg_clipped, countShowPages, if_pos hwh]
      rfl
    · simp only [draw_svg_clipped, countShowPages, if_neg hwh]
      rfl

/-- The showPage operations issued from index i on are exactly the indices in
the processed range whose page-break test fires. -/
theorem countShowPages_renderFrom (cols rows : ℕ) (offX offY cellSize circleD sp sg : ℝ)
    (fill : ColorQ) (load : SPath → LoadResult) :
    ∀ (assets : List SPath) (i : ℕ),
      countShowPages (renderFrom cols rows offX offY cellSize circleD sp sg fill load i assets) =
        (List.range' i assets.length).countP (startsNewPage (cols * rows)) := by
  intro assets
  induction assets with
  | nil => intro i; rfl
  | cons p rest ih =>
    intro i
    show countShowPages
        ((if startsNewPage (cols * rows) i then [DrawOp.showPage] else []) ++
          draw_svg_clipped p (cellXOf offX cellSize cols (cols * rows) i)
            (cellYOf offY cellSize cols (cols * rows) i) cellSize circleD sp sg fill (load p) ++
          renderFrom cols rows offX offY cellSize circleD sp sg fill load (i + 1) rest) = _
    unfold countShowPages
    rw [List.countP_append, List.countP_append]
    have hdraw := countShowPages_draw p (cellXOf offX cellSize cols (cols * rows) i)
      (cellYOf offY cellSize cols (cols * rows) i) cellSize circleD sp sg fill (load p)
    unfold countShowPages at hdraw
    rw [hdraw]
    have hrest := ih (i + 1)
    unfold countShowPages at hrest
    rw [hrest]
    rw [List.length_cons, List.range'_succ, List.countP_cons]
    by_cases hb : startsNewPage (cols * rows) i
    · simp only [if_pos hb, hb, List.countP_cons, List.countP_nil, if_true]
      omega
    · rw [Bool.not_eq_true] at hb
      simp only [hb, if_false, Bool.false_eq_true, List.countP_nil]
      omega

/-- Counting page breaks over the first N indices: one page plus a break at
every positive multiple of the page capacity gives the ceiling N/p written
as (N + p - 1) / p. -/
theorem pages_count_closed (p : ℕ) (hp : 0 < p) :
    ∀ N : ℕ, 1 ≤ N →
      1 + (List.range N).countP (startsNewPage p) = (N + p - 1) / p := by
  intro N hN
  induction N, hN using Nat.le_induction with
  | base =>
    have h0 : startsNewPage p 0 = false := by
      unfold startsNewPage cellIndexOf
      simp
    rw [List.range_succ, List.range_zero]
    simp only [List.countP_append, List.countP_nil, List.countP_cons, h0,
      Bool.false_eq_true, if_false]
    have : (1 + p - 1) / p = 1 := by
      have : 1 + p - 1 = p := by omega
      rw [this, Nat.div_self hp]
    omega
  | succ N hN ih =>
    have ihN := ih
    have hne : N ≠ 0 := by omega
    rw [List.range_succ, List.countP_append]
    by_cases hd : p ∣ N
    · have hsN : List.countP (startsNewPage p) [N] = 1 := by
        have hm : N % p = 0 := by
          obtain ⟨k, rfl⟩ := hd
          exact Nat.mul_mod_right p k
        simp only [List.countP_cons, List.countP_nil]
        unfold startsNewPage cellIndexOf
        simp [hm, hne]
      rw [hsN]
      obtain ⟨k, rfl⟩ := hd
      have e1 : p * k + 1 + p - 1 = p * (k + 1) := by ring_nf; omega
      have e2 : p * k + p - 1 = p * k + (p - 1) := by omega
      have v1 : (p * (k + 1)) / p = k + 1 := Nat.mul_div_cancel_left _ hp
      have v2 : (p * k + (p - 1)) / p = k + (p - 1) / p := Nat.mul_add_div hp _ _
      have v3 : (p - 1) / p = 0 := Nat.div_eq_of_lt (by omega)
      rw [e1, v1]
      rw [e2, v2, v3] at ihN
      omega
    · have hsN : List.countP (startsNewPage p) [N] = 0 := by
        have hm : N % p ≠ 0 := fun hmm => hd (Nat.dvd_of_mod_eq_zero hmm)
        simp only [List.countP_cons, List.countP_nil]
        unfold startsNewPage cellIndexOf
        simp [hm]
      rw [hsN]
      have e1 : N + 1 + p - 1 = (N + p - 1) + 1 := by omega
      have hnd : ¬ p ∣ (N + p - 1) + 1 := by
        have e2 : (N + p - 1) + 1 = N + p := by omega
        rw [e2]
        intro hcon
        exact hd (Nat.dvd_add_self_right.mp hcon)
      rw [e1, Nat.succ_div_of_not_dvd hnd]
      omega

/-- The natural-number expression (N + p - 1) / p is the ceiling of N / p. -/
theorem ceil_div_nat (p N : ℕ) (hp : 0 < p) (hN : 1 ≤ N) :
    (((N + p - 1) / p : ℕ) : ℤ) = ⌈(N : ℚ) / (p : ℚ)⌉ := by
  have hpq : (0 : ℚ) < (p : ℚ) := by exact_mod_cast hp
  set n := (N + p - 1) / p with hn
  have hdm := Nat.div_add_mod (N + p - 1) p
  have hmlt := Nat.mod_lt (N + p - 1) hp
  set r := (N + p - 1) % p with hr
  have hsub : N + p - 1 + 1 = N + p := by omega
  have hdmq : (p : ℚ) * (n : ℚ) + (r : ℚ) + 1 = (N : ℚ) + (p : ℚ) := by
    have : (((p * n + r) + 1 : ℕ) : ℚ) = ((N + p : ℕ) : ℚ) := by
      rw [hdm, hsub]
    push_cast at this
    linarith
  have hrq : (r : ℚ) < (p : ℚ) := by exact_mod_cast hmlt
  have hr0 : (0 : ℚ) ≤ (r : ℚ) := by positivity
  symm
  rw [Int.ceil_eq_iff]
  constructor
  · push_cast
    rw [lt_div_iff hpq]
    nlinarith [hdmq, hrq, hr0]
  · push_cast
    rw [div_le_iff hpq]
    have hcomm : (n : ℚ) * (p : ℚ) = (p : ℚ) * (n : ℚ) := mul_comm _ _
    have hrq1 : (r : ℚ) + 1 ≤ (p : ℚ) := by exact_mod_cast hmlt
    linarith [hdmq, hrq1, hr0, hcomm]

/-- Claim C2: for every zero-based index the loop computes the claimed cell
index, column, row and top-left position, begins a new page exactly when the
cell index is zero and the asset index is not, and a nonempty run of N
assets therefore emits exactly the ceiling of N over the page capacity as
pages. -/
theorem claim2_assignment_pages (cols rows : ℕ) (hc : 0 < cols) (hr : 0 < rows)
    (offX offY cellSize circleD strokePt strokeGray : ℝ) (fill : ColorQ)
    (load : SPath → LoadResult) (assets : List SPath) (hne : assets ≠ []) :
    (∀ i, cellIndexOf (cols * rows) i = i % (cols * rows) ∧
      colOf cols (cols * rows) i = i % (cols * rows) % cols ∧
      rowOf cols (cols * rows) i = i % (cols * rows) / cols ∧
      cellXOf offX cellSize cols (cols * rows) i =
        offX + ((i % (cols * rows) % cols : ℕ) : ℝ) * cellSize ∧
      cellYOf offY cellSize cols (cols * rows) i =
        offY + ((i % (cols * rows) / cols : ℕ) : ℝ) * cellSize ∧
      (startsNewPage (cols * rows) i = true ↔ i % (cols * rows) = 0 ∧ i ≠ 0)) ∧
    pagesEmitted
        (renderFrom cols rows offX offY cellSize circleD strokePt strokeGray fill load 0 assets) =
      (assets.length + cols * rows - 1) / (cols * rows) ∧
    ((pagesEmitted
        (renderFrom cols rows offX offY cellSize circleD strokePt strokeGray fill load 0 assets) : ℕ) : ℤ) =
      ⌈(assets.length : ℚ) / ((cols * rows : ℕ) : ℚ)⌉ := by
  have hp : 0 < cols * rows := Nat.mul_pos hc hr
  have hN : 1 ≤ assets.length := List.length_pos.mpr hne
  have hpages : pagesEmitted
      (renderFrom cols rows offX offY cellSize circleD strokePt strokeGray fill load 0 assets) =
      (assets.length + cols * rows - 1) / (cols * rows) := by
    unfold pagesEmitted
    rw [countShowPages_renderFrom]
    rw [← List.range_eq_range']
    exact pages_count_closed (cols * rows) hp assets.length hN
  refine ⟨?_, hpages, ?_⟩
  · intro i
    refine ⟨rfl, rfl, rfl, rfl, rfl, ?_⟩
    unfold startsNewPage cellIndexOf
    simp
  · rw [hpages]
    exact ceil_div_nat (cols * rows) assets.length hp hN

/-- Witness for claim C2: seven assets in a 2 by 3 grid fill two pages. -/
theorem claim2_assignment_pages_witness :
    pagesEmitted
        (renderFrom 2 3 0 0 72 (324/5) (1/4) (1/5) (ColorQ.mk 0 0 0)
          (fun _ => LoadResult.ok 1 1) 0
          (List.replicate 7 (SPath.mk ([ 'a' ]) ([ 'i', '.', 's', 'v', 'g' ])))) = 2 := by
  have h := (claim2_assignment_pages 2 3 (by norm_num) (by norm_num) 0 0 72 (324/5) (1/4) (1/5)
    (ColorQ.mk 0 0 0) (fun _ => LoadResult.ok 1 1)
    (List.replicate 7 (SPath.mk ([ 'a' ]) ([ 'i', '.', 's', 'v', 'g' ])))
    (by simp)).2.1
  simpa using h

/-! ## Claim C5: discovery filter, ordering, and order independence -/

/-- Characters with equal code points are equal. -/
theorem char_toNat_inj {a b : Char} (h : a.toNat = b.toNat) : a = b :=
  Char.ofNat_toNat a ▸ Char.ofNat_toNat b ▸ congrArg Char.ofNat h

/-- lexLe is total. -/
theorem lexLe_total : ∀ a b : List Char, lexLe a b = true ∨ lexLe b a = true := by
  intro a
  induction a with
  | nil => intro b; left; rfl
  | cons x xs ih =>
    intro b
    cases b with
    | nil => right; rfl
    | cons y ys =>
      by_cases hxy : x = y
      · subst hxy
        rcases ih ys with h | h
        · left; simpa [lexLe] using h
        · right; simpa [lexLe] using h
      · have hyx : ¬ y = x := fun e => hxy e.symm
        rcases lt_trichotomy x.toNat y.toNat with h | h | h
        · left; simp [lexLe, hxy, h]
        · exact absurd (char_toNat_inj h) hxy
        · right; simp [lexLe, hyx, h]

/-- lexLe is transitive. -/
theorem lexLe_trans : ∀ a b c : List Char,
    lexLe a b = true → lexLe b c = true → lexLe a c = true := by
  intro a
  induction a with
  | nil => intro b c _ _; rfl
  | cons x xs ih =>
    intro b c h1 h2
    cases b with
    | nil => simp [lexLe] at h1
    | cons y ys =>
      cases c with
      | nil => simp [lexLe] at h2
      | cons z zs =>
        by_cases hxy : x = y
        · subst hxy
          by_cases hxz : x = z
          · subst hxz
            simp [lexLe] at h1 h2 ⊢
            exact ih ys zs h1 h2
          · simp [lexLe, hxz] at h2 ⊢
            exact h2
        · by_cases hyz : y = z
          · subst hyz
            simp [lexLe, hxy] at h1 ⊢
            exact h1
          · simp [lexLe, hxy] at h1
            simp [lexLe, hyz] at h2
            have hxz : ¬ x = z := by
              intro e
              subst e
              omega
            simp [lexLe, hxz]
            exact Nat.lt_trans h1 h2

/-- lexLe is antisymmetric. -/
theorem lexLe_antisymm : ∀ a b : List Char,
    lexLe a b = true → lexLe b a = true → a = b := by
  intro a
  induction a with
  | nil =>
    intro b _ h2
    cases b with
    | nil => rfl
    | cons y ys => simp [lexLe] at h2
  | cons x xs ih =>
    intro b h1 h2
    cases b with
    | nil => simp [lexLe] at h1
    | cons y ys =>
      by_cases hxy : x = y
      · subst hxy
        simp [lexLe] at h1 h2
        rw [ih ys h1 h2]
      · have hyx : ¬ y = x := fun e => hxy e.symm
        simp [lexLe, hxy] at h1
        simp [lexLe, hyx] at h2
        omega

instance : IsTotal SPath pathLe := by
  constructor
  intro p q
  unfold pathLe
  by_cases hpq : p.parent = q.parent
  · rw [if_pos hpq, if_pos hpq.symm]
    exact lexLe_total p.name q.name
  · rw [if_neg hpq, if_neg (fun e => hpq e.symm)]
    exact lexLe_total p.parent q.parent

instance : IsTrans SPath pathLe := by
  constructor
  intro p q r h1 h2
  unfold pathLe at h1 h2 ⊢
  by_cases hpq : p.parent = q.parent
  · rw [if_pos hpq] at h1
    by_cases hqr : q.parent = r.parent
    · rw [if_pos hqr] at h2
      rw [if_pos (hpq.trans hqr)]
      exact lexLe_trans _ _ _ h1 h2
    · rw [if_neg hqr] at h2
      rw [if_neg (fun e => hqr (hpq.symm.trans e)), hpq]
      exact h2
  · rw [if_neg hpq] at h1
    by_cases hqr : q.parent = r.parent
    · rw [if_pos hqr] at h2
      rw [if_neg (fun e => hpq (e.trans hqr.symm)), ← hqr]
      exact h1
    · rw [if_neg hqr] at h2
      have hpr : ¬ p.parent = r.parent := by
        intro e
        rw [← e] at h2
        exact hpq (lexLe_antisymm _ _ h1 h2)
      rw [if_neg hpr]
      exact lexLe_trans _ _ _ h1 h2

instance : IsAntisymm SPath pathLe := by
  constructor
  intro p q h1 h2
  unfold pathLe at h1 h2
  by_cases hpq : p.parent = q.parent
  · rw [if_pos hpq] at h1
    rw [if_pos hpq.symm] at h2
    have hn := lexLe_antisymm _ _ h1 h2
    cases p
    cases q
    simp_all
  · rw [if_neg hpq] at h1
    rw [if_neg (fun e => hpq e.symm)] at h2
    exact absurd (lexLe_antisymm _ _ h1 h2) hpq

/-- Claim C5: discovery returns exactly the files whose name matches the
case-insensitive .svg test, sorted by parent-directory string and then
filename; the result is independent of the order in which the walk yields
the files; and on the example set b/2.svg, a/1.svg, a/2.svg the output order
is a/1.svg, a/2.svg, b/2.svg. -/
theorem claim5_discovery :
    (∀ files : List SPath,
      (find_svgs files).Perm (files.filter (fun p => isSvgName p.name)) ∧
      List.Sorted pathLe (find_svgs files)) ∧
    (∀ f1 f2 : List SPath, f1.Perm f2 → find_svgs f1 = find_svgs f2) ∧
    find_svgs
        [SPath.mk ([ 'b' ]) ([ '2', '.', 's', 'v', 'g' ]),
         SPath.mk ([ 'a' ]) ([ '1', '.', 's', 'v', 'g' ]),
         SPath.mk ([ 'a' ]) ([ '2', '.', 's', 'v', 'g' ])] =
      [SPath.mk ([ 'a' ]) ([ '1', '.', 's', 'v', 'g' ]),
       SPath.mk ([ 'a' ]) ([ '2', '.', 's', 'v', 'g' ]),
       SPath.mk ([ 'b' ]) ([ '2', '.', 's', 'v', 'g' ])] := by
  refine ⟨?_, ?_, by decide⟩
  · intro files
    exact ⟨List.perm_insertionSort pathLe _, List.sorted_insertionSort pathLe _⟩
  · intro f1 f2 hperm
    exact @List.eq_of_perm_of_sorted SPath pathLe _ _ _
      ((List.perm_insertionSort pathLe _).trans
        ((hperm.filter _).trans (List.perm_insertionSort pathLe _).symm))
      (List.sorted_insertionSort pathLe _) (List.sorted_insertionSort pathLe _)

/-- Witness for claim C5: two walk orders of the same three files give the
same sorted output. -/
theorem claim5_discovery_witness :
    ([SPath.mk ([ 'b' ]) ([ '2', '.', 's', 'v', 'g' ]),
      SPath.mk ([ 'a' ]) ([ '1', '.', 's', 'v', 'g' ]),
      SPath.mk ([ 'a' ]) ([ '2', '.', 's', 'v', 'g' ])] : List SPath).Perm
      [SPath.mk ([ 'a' ]) ([ '2', '.', 's', 'v', 'g' ]),
       SPath.mk ([ 'b' ]) ([ '2', '.', 's', 'v', 'g' ]),
       SPath.mk ([ 'a' ]) ([ '1', '.', 's', 'v', 'g' ])] ∧
    find_svgs
        [SPath.mk ([ 'b' ]) ([ '2', '.', 's', 'v', 'g' ]),
         SPath.mk ([ 'a' ]) ([ '1', '.', 's', 'v', 'g' ]),
         SPath.mk ([ 'a' ]) ([ '2', '.', 's', 'v', 'g' ])] =
      find_svgs
        [SPath.mk ([ 'a' ]) ([ '2', '.', 's', 'v', 'g' ]),
         SPath.mk ([ 'b' ]) ([ '2', '.', 's', 'v', 'g' ]),
         SPath.mk ([ 'a' ]) ([ '1', '.', 's', 'v', 'g' ])] :=
  ⟨by decide, claim5_discovery.2.1 _ _ (by decide)⟩

/-! ## Claim C4: scale to fit the inscribed square -/

/-- Claim C4: for positive intrinsic sizes the uniform scale
min (side / w) (side / h) with side the inscribed-square side satisfies
scale * max w h = side (hence at most the bound, with one factor reaching
it exactly), both scaled sides stay within the bound, and the icon rectangle
placed at cell_x + (cell_size - scaledW) / 2 is centered in the cell on both
axes. -/
theorem claim4_icon_scale (d w h : ℝ) (hd : 0 < d) (hw : 0 < w) (hh : 0 < h) :
    iconScale d w h * max w h = inscribedSide d ∧
    (iconScale d w h * w = inscribedSide d ∨ iconScale d w h * h = inscribedSide d) ∧
    iconScale d w h * w ≤ inscribedSide d ∧ iconScale d w h * h ≤ inscribedSide d ∧
    (∀ cx cy cs : ℝ,
      (cx + (cs - w * iconScale d w h) / 2) + w * iconScale d w h / 2 = cx + cs / 2 ∧
      (cy + (cs - h * iconScale d w h) / 2) + h * iconScale d w h / 2 = cy + cs / 2) := by
  have h2 : (0 : ℝ) < Real.sqrt 2 := Real.sqrt_pos.mpr (by norm_num)
  have hside : 0 < inscribedSide d := div_pos hd h2
  have hcenter : ∀ cx cy cs : ℝ,
      (cx + (cs - w * iconScale d w h) / 2) + w * iconScale d w h / 2 = cx + cs / 2 ∧
      (cy + (cs - h * iconScale d w h) / 2) + h * iconScale d w h / 2 = cy + cs / 2 := by
    intro cx cy cs
    constructor <;> ring
  rcases le_total w h with hwh | hwh
  · have hdiv : inscribedSide d / h ≤ inscribedSide d / w :=
      div_le_div_of_nonneg_left hside.le hw hwh
    have hmin : iconScale d w h = inscribedSide d / h := min_eq_right hdiv
    have heq : iconScale d w h * h = inscribedSide d := by
      rw [hmin]
      field_simp
    have hle : iconScale d w h * w ≤ inscribedSide d := by
      calc iconScale d w h * w ≤ iconScale d w h * h := by
            apply mul_le_mul_of_nonneg_left hwh
            rw [hmin]
            positivity
        _ = inscribedSide d := heq
    refine ⟨?_, Or.inr heq, hle, le_of_eq heq, hcenter⟩
    rw [max_eq_right hwh]
    exact heq
  · have hdiv : inscribedSide d / w ≤ inscribedSide d / h :=
      div_le_div_of_nonneg_left hside.le hh hwh
    have hmin : iconScale d w h = inscribedSide d / w := min_eq_left hdiv
    have heq : iconScale d w h * w = inscribedSide d := by
      rw [hmin]
      field_simp
    have hle : iconScale d w h * h ≤ inscribedSide d := by
      calc iconScale d w h * h ≤ iconScale d w h * w := by
            apply mul_le_mul_of_nonneg_left hwh
            rw [hmin]
            positivity
        _ = inscribedSide d := heq
    refine ⟨?_, Or.inl heq, le_of_eq heq, hle, hcenter⟩
    rw [max_eq_left hwh]
    exact heq

/-- Witness for claim C4 at diameter 2 and a 1 by 2 icon. -/
theorem claim4_icon_scale_witness :
    (0 : ℝ) < 2 ∧ (0 : ℝ) < 1 ∧
    (iconScale 2 1 2 * max 1 2 = inscribedSide 2 ∧
      (iconScale 2 1 2 * 1 = inscribedSide 2 ∨ iconScale 2 1 2 * 2 = inscribedSide 2) ∧
      iconScale 2 1 2 * 1 ≤ inscribedSide 2 ∧ iconScale 2 1 2 * 2 ≤ inscribedSide 2 ∧
      (∀ cx cy cs : ℝ,
        (cx + (cs - 1 * iconScale 2 1 2) / 2) + 1 * iconScale 2 1 2 / 2 = cx + cs / 2 ∧
        (cy + (cs - 2 * iconScale 2 1 2) / 2) + 2 * iconScale 2 1 2 / 2 = cy + cs / 2)) :=
  ⟨by norm_num, by norm_num,
    claim4_icon_scale 2 1 2 (by norm_num) (by norm_num) (by norm_num)⟩

/-! ## Claim C1: behaviour of a cell whose SVG fails to load -/

/-- A sample asset whose SVG fails to parse. -/
def badAsset : SPath :=
  SPath.mk ([ 'a' ]) ([ 'b', 'a', 'd', '.', 's', 'v', 'g' ])

/-- A sample asset whose SVG parses with size 512 by 512. -/
def goodAsset : SPath :=
  SPath.mk ([ 'a' ]) ([ 'o', 'k', '.', 's', 'v', 'g' ])

/-- A parse environment in which badAsset raises and every other asset
loads at 512 by 512. -/
def demoEnv : SPath → LoadResult := fun p =>
  if p = badAsset then LoadResult.err ([ 'b', 'o', 'o', 'm' ]) else LoadResult.ok 512 512

/-- The operations issued for a cell whose SVG raises while loading. -/
noncomputable def failParseCell : List DrawOp :=
  draw_svg_clipped badAsset 0 0 72 (324/5) (1/4) (1/5) (ColorQ.mk 0 0 0)
    (LoadResult.err ([ 'b', 'o', 'o', 'm' ]))

/-- The operations issued for a cell whose SVG reports width 0. -/
noncomputable def zeroSizeCell : List DrawOp :=
  draw_svg_clipped badAsset 0 0 72 (324/5) (1/4) (1/5) (ColorQ.mk 0 0 0)
    (LoadResult.ok 0 512)

/-- The operations of a two-asset run whose first asset fails to parse. -/
noncomputable def demoRun : List DrawOp :=
  renderFrom 8 11 (927/100) (2463/100) 72 (324/5) (1/4) (1/5) (ColorQ.mk 0 0 0)
    demoEnv 0 [badAsset, goodAsset]

/-- Claim C1, checked on the code: a failing asset is warned about and its
cell keeps the background circle, and the run continues with the next asset
— but the failing cell does NOT receive its hairline border, because
draw_svg_clipped returns before the outline step (lines 85-94 against lines
113-118).  The last conjunct shows the later asset of the same run is still
drawn in full. -/
theorem claim1_failed_cell_misses_border :
    (warnsFor badAsset failParseCell = true ∧ hasCircleFill failParseCell = true ∧
      hasBorderStroke failParseCell = false) ∧
    (warnsFor badAsset zeroSizeCell = true ∧ hasCircleFill zeroSizeCell = true ∧
      hasBorderStroke zeroSizeCell = false) ∧
    (warnsFor badAsset demoRun = true ∧ drawsIconFor badAsset demoRun = false ∧
      drawsIconFor goodAsset demoRun = true ∧ hasBorderStroke demoRun = true) := by
  refine ⟨⟨?_, ?_, ?_⟩, ⟨?_, ?_, ?_⟩, ⟨?_, ?_, ?_, ?_⟩⟩ <;> decide

/-! ## Claim C6: a directory with no SVGs exits 1 without creating output -/

/-- Claim C6: when the input directory exists but discovery finds no SVG
files, main returns exit code 1, the reportlab canvas for the output path is
never constructed and save never runs, so no output document is created or
partially written; no drawing operation is issued. -/
theorem claim6_empty_input (files : List SPath) (load : SPath → LoadResult)
    (page : PageChoice) (cellSizeIn circleDIn strokePt gray : ℚ)
    (fg bg : Option (List Char))
    (hfg : (parse_color fg ([ 'f', 'f', 'f' ])).isSome = true)
    (hbg : (parse_color bg ([ '0', '0', '0' ])).isSome = true)
    (hempty : find_svgs files = []) :
    (mainModel true files load page cellSizeIn circleDIn strokePt gray fg bg).exit = 1 ∧
    (mainModel true files load page cellSizeIn circleDIn strokePt gray fg bg).canvasCreated = false ∧
    (mainModel true files load page cellSizeIn circleDIn strokePt gray fg bg).pdfSaved = false ∧
    (mainModel true files load page cellSizeIn circleDIn strokePt gray fg bg).ops = [] := by
  obtain ⟨pf, hpf⟩ := Option.isSome_iff_exists.mp hfg
  obtain ⟨bf, hpb⟩ := Option.isSome_iff_exists.mp hbg
  obtain ⟨fc, fh⟩ := pf
  obtain ⟨bc, bh⟩ := bf
  unfold mainModel
  rw [hpf, hpb]
  simp [hempty]

/-- Witness for claim C6: a directory holding a single text file. -/
theorem claim6_empty_input_witness :
    (mainModel true [SPath.mk ([ 'a' ]) ([ 'n', 'o', 't', 'e', '.', 't', 'x', 't' ])]
        (fun _ => LoadResult.err []) PageChoice.a4 1 (9/10) (1/4) (1/5) none none).exit = 1 ∧
    (mainModel true [SPath.mk ([ 'a' ]) ([ 'n', 'o', 't', 'e', '.', 't', 'x', 't' ])]
        (fun _ => LoadResult.err []) PageChoice.a4 1 (9/10) (1/4) (1/5) none none).canvasCreated = false ∧
    (mainModel true [SPath.mk ([ 'a' ]) ([ 'n', 'o', 't', 'e', '.', 't', 'x', 't' ])]
        (fun _ => LoadResult.err []) PageChoice.a4 1 (9/10) (1/4) (1/5) none none).pdfSaved = false ∧
    (mainModel true [SPath.mk ([ 'a' ]) ([ 'n', 'o', 't', 'e', '.', 't', 'x', 't' ])]
        (fun _ => LoadResult.err []) PageChoice.a4 1 (9/10) (1/4) (1/5) none none).ops = [] :=
  claim6_empty_input [SPath.mk ([ 'a' ]) ([ 'n', 'o', 't', 'e', '.', 't', 'x', 't' ])]
    (fun _ => LoadResult.err []) PageChoice.a4 1 (9/10) (1/4) (1/5) none none
    (by decide) (by decide) (by decide)

/-! ## Claim C7: color normalization is idempotent -/

theorem hexVal_hexChar (n : ℕ) (h : n < 16) : hexVal (hexChar n) = some n := by
  interval_cases n <;> decide

theorem hexChar_not_space (n : ℕ) (h : n < 16) : isPySpace (hexChar n) = false := by
  interval_cases n <;> decide

theorem hexPairVal_natToHex2 (n : ℕ) (h : n < 256) :
    hexPairVal (hexChar (n / 16)) (hexChar (n % 16)) = some n := by
  have h1 : n / 16 < 16 := by omega
  have h2 : n % 16 < 16 := Nat.mod_lt _ (by norm_num)
  unfold hexPairVal
  rw [hexVal_hexChar _ h1, hexVal_hexChar _ h2]
  show some (16 * (n / 16) + n % 16) = some n
  rw [Nat.div_add_mod]

theorem pyStrip_canonical (r g b : ℕ) :
    pyStrip ('#' :: (natToHex2 r ++ (natToHex2 g ++ natToHex2 b))) =
      '#' :: (natToHex2 r ++ (natToHex2 g ++ natToHex2 b)) := by
  have e1 : isPySpace (hexChar (b % 16)) = false := hexChar_not_space _ (Nat.mod_lt _ (by norm_num))
  have e0 : isPySpace '#' = false := by decide
  unfold natToHex2 pyStrip
  simp [List.dropWhile, e0, e1]

theorem toColorModel_canonical (r g b : ℕ) (hr : r < 256) (hg : g < 256) (hb : b < 256) :
    toColorModel ('#' :: (natToHex2 r ++ (natToHex2 g ++ natToHex2 b))) =
      some (ColorQ.mk ((r : ℚ) / 255) ((g : ℚ) / 255) ((b : ℚ) / 255)) := by
  unfold toColorModel natToHex2
  simp only [List.cons_append, List.nil_append]
  rw [hexPairVal_natToHex2 r hr, hexPairVal_natToHex2 g hg, hexPairVal_natToHex2 b hb]

theorem formatHex_canonical (r g b : ℕ) (hr : r < 256) (hg : g < 256) (hb : b < 256) :
    formatHex (ColorQ.mk ((r : ℚ) / 255) ((g : ℚ) / 255) ((b : ℚ) / 255)) =
      '#' :: (natToHex2 r ++ (natToHex2 g ++ natToHex2 b)) := by
  have comp : ∀ n : ℕ, n < 256 →
      (max 0 (min 255 (pyRound (((n : ℚ) / 255) * 255)))).toNat = n := by
    intro n hn
    have hmul : ((n : ℚ) / 255) * 255 = (n : ℚ) := div_mul_cancel₀ _ (by norm_num)
    rw [hmul]
    have hround : pyRound ((n : ℕ) : ℚ) = (n : ℤ) := by
      unfold pyRound
      exact round_natCast n
    rw [hround]
    have hmin : min 255 (n : ℤ) = (n : ℤ) := min_eq_right (by exact_mod_cast Nat.lt_succ_iff.mp (by omega))
    rw [hmin]
    have hmax : max 0 (n : ℤ) = (n : ℤ) := max_eq_right (by positivity)
    rw [hmax]
    exact Int.toNat_natCast n
  unfold formatHex
  simp only []
  rw [comp r hr, comp g hg, comp b hb, List.append_assoc]

theorem claim7_parse_color_idempotent (r g b : ℕ) (dflt : List Char)
    (hr : r < 256) (hg : g < 256) (hb : b < 256) :
    parse_color (some ('#' :: (natToHex2 r ++ (natToHex2 g ++ natToHex2 b)))) dflt =
      some (ColorQ.mk ((r : ℚ) / 255) ((g : ℚ) / 255) ((b : ℚ) / 255),
        '#' :: (natToHex2 r ++ (natToHex2 g ++ natToHex2 b))) := by
  have hresolve : resolveRaw (some ('#' :: (natToHex2 r ++ (natToHex2 g ++ natToHex2 b)))) dflt =
      '#' :: (natToHex2 r ++ (natToHex2 g ++ natToHex2 b)) := by
    simp [resolveRaw, pyStrip_canonical r g b]
  have hhash : startsWith ([ '#' ]) ('#' :: (natToHex2 r ++ (natToHex2 g ++ natToHex2 b))) = true := by
    rfl
  simp [parse_color, hresolve, hhash, toColorModel_canonical r g b hr hg hb,
    formatHex_canonical r g b hr hg hb]

theorem claim7_witness :
    (255 : ℕ) < 256 ∧ (0 : ℕ) < 256 ∧ (16 : ℕ) < 256 ∧
    parse_color (some ('#' :: (natToHex2 255 ++ (natToHex2 0 ++ natToHex2 16)))) ([ 'f', 'f', 'f' ]) =
      some (ColorQ.mk ((255 : ℚ) / 255) ((0 : ℚ) / 255) ((16 : ℚ) / 255),
        '#' :: (natToHex2 255 ++ (natToHex2 0 ++ natToHex2 16))) :=
  ⟨by decide, by decide, by decide,
    claim7_parse_color_idempotent 255 0 16 ([ 'f', 'f', 'f' ]) (by decide) (by decide) (by decide)⟩

/-! ## Claim C8: foreground substitution equals a simultaneous replacement -/

theorem replaceAll_nil (pat repl : List Char) : replaceAll pat repl [] = [] := by
  cases pat <;> simp [replaceAll]

theorem replaceAll_nil_pat (repl s : List Char) : replaceAll [] repl s = s := by
  cases s <;> simp [replaceAll]

theorem replaceAll_cons_match (p0 : Char) (pr repl : List Char) (c : Char) (cs : List Char)
    (h : startsWith (p0 :: pr) (c :: cs) = true) :
    replaceAll (p0 :: pr) repl (c :: cs) = repl ++ replaceAll (p0 :: pr) repl (cs.drop pr.length) := by
  rw [replaceAll]
  rw [if_pos h]

theorem replaceAll_cons_nomatch (p0 : Char) (pr repl : List Char) (c : Char) (cs : List Char)
    (h : startsWith (p0 :: pr) (c :: cs) = false) :
    replaceAll (p0 :: pr) repl (c :: cs) = c :: replaceAll (p0 :: pr) repl cs := by
  rw [replaceAll]
  rw [if_neg (by rw [h]; exact Bool.false_ne_true)]

theorem startsWith_append (pat t : List Char) : startsWith pat (pat ++ t) = true := by
  induction pat with
  | nil => rfl
  | cons p ps ih => simp [startsWith, ih]

theorem startsWith_eq_append (pat : List Char) :
    ∀ s : List Char, startsWith pat s = true → s = pat ++ s.drop pat.length := by
  induction pat with
  | nil => intro s _; rfl
  | cons p ps ih =>
    intro s h
    cases s with
    | nil => simp [startsWith] at h
    | cons c cs =>
      simp only [startsWith, Bool.and_eq_true, decide_eq_true_eq] at h
      obtain ⟨hpc, hrest⟩ := h
      subst hpc
      have := ih cs hrest
      simp only [List.length_cons, List.drop_succ_cons]
      exact congrArg (fun l => p :: l) this

theorem replaceAll_append_front (pat repl : List Char) :
    ∀ (pre X : List Char),
      (∀ i, i < pre.length → startsWith pat ((pre ++ X).drop i) = false) →
      replaceAll pat repl (pre ++ X) = pre ++ replaceAll pat repl X := by
  intro pre
  induction pre with
  | nil => intro X _; rfl
  | cons c pre2 ih =>
    intro X hcond
    have h0 : startsWith pat (c :: (pre2 ++ X)) = false := by
      have := hcond 0 (by simp)
      simpa using this
    cases pat with
    | nil => simp [startsWith] at h0
    | cons p0 pr =>
      rw [List.cons_append, replaceAll_cons_nomatch p0 pr repl c (pre2 ++ X) h0]
      rw [ih X (fun i hi => by
        have := hcond (i + 1) (by simp only [List.length_cons]; omega)
        simpa using this)]
      simp

theorem startsWith_through_replaceAll (pat repl t : List Char) (hrepl : repl = '#' :: t) :
    ∀ (pre : List Char), (∀ a ∈ pre, a ≠ '#') → ∀ (s : List Char),
      startsWith pre (replaceAll pat repl s) = true → startsWith pre s = true := by
  intro pre
  induction pre with
  | nil => intro _ s _; rfl
  | cons a pre2 ih =>
    intro hmem s h
    have ha : a ≠ '#' := hmem a (by simp)
    have hmem2 : ∀ x ∈ pre2, x ≠ '#' := fun x hx => hmem x (by simp [hx])
    cases s with
    | nil =>
      rw [replaceAll_nil] at h
      simp [startsWith] at h
    | cons c cs =>
      cases pat with
      | nil =>
        rw [replaceAll_nil_pat] at h
        exact h
      | cons p0 pr =>
        by_cases hm : startsWith (p0 :: pr) (c :: cs) = true
        · rw [replaceAll_cons_match p0 pr repl c cs hm, hrepl] at h
          simp only [List.cons_append, startsWith, Bool.and_eq_true, decide_eq_true_eq] at h
          exact absurd h.1 ha
        · rw [replaceAll_cons_nomatch p0 pr repl c cs (by
            rw [Bool.eq_false_iff]; exact hm)] at h
          simp only [startsWith, Bool.and_eq_true, decide_eq_true_eq] at h
          obtain ⟨hac, hrest⟩ := h
          have := ih hmem2 cs hrest
          simp [startsWith, hac, this]

theorem replaceBothSpec_cons_lo (lo hi : List Char) (c : Char) (cs : List Char)
    (h : startsWith loTok (c :: cs) = true) :
    replaceBothSpec lo hi (c :: cs) = lo ++ replaceBothSpec lo hi (cs.drop 3) := by
  rw [replaceBothSpec]
  rw [if_pos h]

theorem replaceBothSpec_cons_hi (lo hi : List Char) (c : Char) (cs : List Char)
    (h1 : startsWith loTok (c :: cs) = false) (h2 : startsWith hiTok (c :: cs) = true) :
    replaceBothSpec lo hi (c :: cs) = hi ++ replaceBothSpec lo hi (cs.drop 3) := by
  rw [replaceBothSpec]
  rw [if_neg (by rw [h1]; exact Bool.false_ne_true), if_pos h2]

theorem replaceBothSpec_cons_none (lo hi : List Char) (c : Char) (cs : List Char)
    (h1 : startsWith loTok (c :: cs) = false) (h2 : startsWith hiTok (c :: cs) = false) :
    replaceBothSpec lo hi (c :: cs) = c :: replaceBothSpec lo hi cs := by
  rw [replaceBothSpec]
  rw [if_neg (by rw [h1]; exact Bool.false_ne_true), if_neg (by rw [h2]; exact Bool.false_ne_true)]

theorem lowerHex_ne_hash (d : Char) (h : isLowerHexDigit d = true) : ¬ '#' = d := by
  intro e
  rw [← e] at h
  exact absurd h (by decide)

theorem lowerHex_ne_F (d : Char) (h : isLowerHexDigit d = true) : ¬ 'F' = d := by
  intro e
  rw [← e] at h
  exact absurd h (by decide)

theorem lowerChar_fixed (d : Char) (h : isLowerHexDigit d = true) : lowerChar d = d := by
  unfold isLowerHexDigit at h
  simp only [Bool.or_eq_true, decide_eq_true_eq] at h
  unfold lowerChar
  rw [if_neg (by omega)]

theorem replaceAll_loTok_match (repl : List Char) (c : Char) (cs : List Char)
    (h : startsWith loTok (c :: cs) = true) :
    replaceAll loTok repl (c :: cs) = repl ++ replaceAll loTok repl (cs.drop 3) :=
  replaceAll_cons_match '#' ([ 'f', 'f', 'f' ]) repl c cs h

theorem replaceAll_loTok_nomatch (repl : List Char) (c : Char) (cs : List Char)
    (h : startsWith loTok (c :: cs) = false) :
    replaceAll loTok repl (c :: cs) = c :: replaceAll loTok repl cs :=
  replaceAll_cons_nomatch '#' ([ 'f', 'f', 'f' ]) repl c cs h

theorem replaceAll_hiTok_match (repl : List Char) (c : Char) (cs : List Char)
    (h : startsWith hiTok (c :: cs) = true) :
    replaceAll hiTok repl (c :: cs) = repl ++ replaceAll hiTok repl (cs.drop 3) :=
  replaceAll_cons_match '#' ([ 'F', 'F', 'F' ]) repl c cs h

theorem replaceAll_hiTok_nomatch (repl : List Char) (c : Char) (cs : List Char)
    (h : startsWith hiTok (c :: cs) = false) :
    replaceAll hiTok repl (c :: cs) = c :: replaceAll hiTok repl cs :=
  replaceAll_cons_nomatch '#' ([ 'F', 'F', 'F' ]) repl c cs h

theorem replaceBothSpec_nil (lo hi : List Char) : replaceBothSpec lo hi [] = [] := by
  rw [replaceBothSpec]

theorem recolor_core (d1 d2 d3 d4 d5 d6 : Char)
    (h1 : isLowerHexDigit d1 = true) (h2 : isLowerHexDigit d2 = true)
    (h3 : isLowerHexDigit d3 = true) (h4 : isLowerHexDigit d4 = true)
    (h5 : isLowerHexDigit d5 = true) (h6 : isLowerHexDigit d6 = true)
    (up : List Char) :
    ∀ (n : ℕ) (s : List Char), s.length ≤ n →
      replaceAll hiTok up (replaceAll loTok ([ '#', d1, d2, d3, d4, d5, d6 ]) s) =
        replaceBothSpec ([ '#', d1, d2, d3, d4, d5, d6 ]) up s := by
  intro n
  induction n with
  | zero =>
    intro s hs
    have hnil : s = [] := List.length_eq_zero.mp (Nat.le_zero.mp hs)
    subst hnil
    rw [replaceAll_nil, replaceAll_nil, replaceBothSpec_nil]
  | succ n ih =>
    intro s hs
    cases s with
    | nil =>
      rw [replaceAll_nil, replaceAll_nil, replaceBothSpec_nil]
    | cons c cs =>
      simp only [List.length_cons, Nat.add_le_add_iff_right] at hs
      by_cases hlo : startsWith loTok (c :: cs) = true
      · rw [replaceAll_loTok_match _ c cs hlo]
        rw [replaceAll_append_front hiTok up ([ '#', d1, d2, d3, d4, d5, d6 ]) _ ?cond]
        case cond =>
          intro i hi
          simp only [List.length_cons, List.length_nil] at hi
          interval_cases i <;>
            simp [hiTok, startsWith, List.drop, lowerHex_ne_F d1 h1,
              lowerHex_ne_hash d1 h1, lowerHex_ne_hash d2 h2, lowerHex_ne_hash d3 h3,
              lowerHex_ne_hash d4 h4, lowerHex_ne_hash d5 h5, lowerHex_ne_hash d6 h6]
        rw [ih (cs.drop 3) (by simp only [List.length_drop]; omega)]
        rw [replaceBothSpec_cons_lo _ up c cs hlo]
      · by_cases hhi : startsWith hiTok (c :: cs) = true
        · have hdec := startsWith_eq_append hiTok (c :: cs) hhi
          have hdrop : (c :: cs).drop hiTok.length = cs.drop 3 := by
            simp [hiTok]
          rw [hdrop] at hdec
          have hc : c = '#' := by
            have := hdec
            simp only [hiTok, List.cons_append, List.nil_append] at this
            injection this with hc _
          have hcs : cs = 'F' :: 'F' :: 'F' :: cs.drop 3 := by
            have := hdec
            simp only [hiTok, List.cons_append, List.nil_append] at this
            injection this with _ htail
          subst hc
          -- rewrite the scrutinee into token plus remainder form
          rw [show ('#' :: cs) = '#' :: 'F' :: 'F' :: 'F' :: cs.drop 3 from by rw [← hcs]]
          have hinner : replaceAll loTok ([ '#', d1, d2, d3, d4, d5, d6 ])
              ('#' :: 'F' :: 'F' :: 'F' :: cs.drop 3) =
              '#' :: 'F' :: 'F' :: 'F' ::
                replaceAll loTok ([ '#', d1, d2, d3, d4, d5, d6 ]) (cs.drop 3) := by
            have happ := replaceAll_append_front loTok ([ '#', d1, d2, d3, d4, d5, d6 ])
              ([ '#', 'F', 'F', 'F' ]) (cs.drop 3) ?hc2
            case hc2 =>
              intro i hi
              simp only [List.length_cons, List.length_nil] at hi
              interval_cases i <;> simp [loTok, startsWith, List.drop]
            simpa using happ
          rw [hinner]
          have houter : startsWith hiTok
              ('#' :: 'F' :: 'F' :: 'F' ::
                replaceAll loTok ([ '#', d1, d2, d3, d4, d5, d6 ]) (cs.drop 3)) = true := by
            simp [hiTok, startsWith]
          rw [replaceAll_hiTok_match up '#'
            ('F' :: 'F' :: 'F' :: replaceAll loTok ([ '#', d1, d2, d3, d4, d5, d6 ]) (cs.drop 3))
            houter]
          simp only [List.drop_succ_cons, List.drop_zero]
          rw [ih (cs.drop 3) (by simp only [List.length_drop]; omega)]
          have hlo2 : startsWith loTok ('#' :: 'F' :: 'F' :: 'F' :: cs.drop 3) = false := by
            simp [loTok, startsWith]
          have hhi2 : startsWith hiTok ('#' :: 'F' :: 'F' :: 'F' :: cs.drop 3) = true := by
            simp [hiTok, startsWith]
          rw [replaceBothSpec_cons_hi _ up '#' ('F' :: 'F' :: 'F' :: cs.drop 3) hlo2 hhi2]
          simp only [List.drop_succ_cons, List.drop_zero]
        · have hlo' : startsWith loTok (c :: cs) = false := Bool.eq_false_iff.mpr hlo
          have hhi' : startsWith hiTok (c :: cs) = false := Bool.eq_false_iff.mpr hhi
          rw [replaceAll_loTok_nomatch _ c cs hlo']
          have hno : startsWith hiTok
              (c :: replaceAll loTok ([ '#', d1, d2, d3, d4, d5, d6 ]) cs) = false := by
            rw [Bool.eq_false_iff]
            intro habs
            apply hhi
            simp only [hiTok, startsWith, Bool.and_eq_true, decide_eq_true_eq] at habs ⊢
            obtain ⟨hc, hrest⟩ := habs
            refine ⟨hc, ?_⟩
            exact startsWith_through_replaceAll loTok ([ '#', d1, d2, d3, d4, d5, d6 ])
              ([ d1, d2, d3, d4, d5, d6 ]) rfl ([ 'F', 'F', 'F' ]) (by decide) cs hrest
          rw [replaceAll_hiTok_nomatch up c _ hno]
          rw [ih cs hs]
          rw [replaceBothSpec_cons_none _ up c cs hlo' hhi']

/-- Claim C8: for a canonical #rrggbb foreground, the two sequential
str.replace passes of line 125 produce exactly the simultaneous
substitution that replaces every occurrence of the lowercase token with the
lowercased foreground hex and every occurrence of the uppercase token with
the uppercased foreground hex, leaving all other characters unchanged. -/
theorem claim8_recolor (fg : List Char) (hfg : canonicalHex fg = true) (s : List Char) :
    recolorSvg fg s = replaceBothSpec (fg.map lowerChar) (fg.map upperChar) s := by
  cases fg with
  | nil => simp [canonicalHex] at hfg
  | cons c body =>
    simp only [canonicalHex, Bool.and_eq_true, decide_eq_true_eq, List.all_eq_true] at hfg
    obtain ⟨hc, hlen, hdig⟩ := hfg
    subst hc
    rcases body with _ | ⟨d1, body⟩
    · simp at hlen
    rcases body with _ | ⟨d2, body⟩
    · simp at hlen
    rcases body with _ | ⟨d3, body⟩
    · simp at hlen
    rcases body with _ | ⟨d4, body⟩
    · simp at hlen
    rcases body with _ | ⟨d5, body⟩
    · simp at hlen
    rcases body with _ | ⟨d6, body⟩
    · simp at hlen
    have hbody : body = [] := by
      simp only [List.length_cons] at hlen
      have : body.length = 0 := by omega
      exact List.length_eq_zero.mp this
    subst hbody
    have hd1 : isLowerHexDigit d1 = true := hdig d1 (by simp)
    have hd2 : isLowerHexDigit d2 = true := hdig d2 (by simp)
    have hd3 : isLowerHexDigit d3 = true := hdig d3 (by simp)
    have hd4 : isLowerHexDigit d4 = true := hdig d4 (by simp)
    have hd5 : isLowerHexDigit d5 = true := hdig d5 (by simp)
    have hd6 : isLowerHexDigit d6 = true := hdig d6 (by simp)
    have hlomap : List.map lowerChar ([ '#', d1, d2, d3, d4, d5, d6 ]) =
        ([ '#', d1, d2, d3, d4, d5, d6 ]) := by
      simp [List.map, lowerChar_fixed d1 hd1, lowerChar_fixed d2 hd2, lowerChar_fixed d3 hd3,
        lowerChar_fixed d4 hd4, lowerChar_fixed d5 hd5, lowerChar_fixed d6 hd6,
        show lowerChar '#' = '#' from by decide]
    unfold recolorSvg
    rw [hlomap]
    exact recolor_core d1 d2 d3 d4 d5 d6 hd1 hd2 hd3 hd4 hd5 hd6
      (List.map upperChar ([ '#', d1, d2, d3, d4, d5, d6 ])) s.length s le_rfl

/-- Witness for claim C8 on the foreground #a1b2c3 and a small SVG-like
source holding both placeholder tokens. -/
theorem claim8_recolor_witness :
    canonicalHex ([ '#', 'a', '1', 'b', '2', 'c', '3' ]) = true ∧
    recolorSvg ([ '#', 'a', '1', 'b', '2', 'c', '3' ])
        ([ '<', 'p', ' ', '#', 'f', 'f', 'f', ' ', '#', 'F', 'F', 'F', '>' ]) =
      replaceBothSpec
        (List.map lowerChar ([ '#', 'a', '1', 'b', '2', 'c', '3' ]))
        (List.map upperChar ([ '#', 'a', '1', 'b', '2', 'c', '3' ]))
        ([ '<', 'p', ' ', '#', 'f', 'f', 'f', ' ', '#', 'F', 'F', 'F', '>' ]) :=
  ⟨by decide, claim8_recolor ([ '#', 'a', '1', 'b', '2', 'c', '3' ]) (by decide)
    ([ '<', 'p', ' ', '#', 'f', 'f', 'f', ' ', '#', 'F', 'F', 'F', '>' ])⟩

end GameIcons
